import Mathlib

/-!
Verification development for the Chat-to-PDF Gradio application (`src/app.py`).

Strings are modelled as `List Char` (named `Str`).  The application's
module-level globals become the fields of `AppState`; the external
collaborators (the PDF reader, the two Gemini SDK bindings and the prompt
contract file) are parameters collected in `AppEnv`.  Python's `json.loads`
is modelled by an executable recursive-descent parser `jsonParse` producing
`PyVal` terms (JSON null / bool / integer / string / array / object; float
literals are outside the model).  The event handlers `parse_pdf`,
`init_gemini_client`, `upload_and_prepare` and `chat` are translated
line by line into pure state-passing functions.
-/

abbrev Str := List Char

/-- ASCII whitespace stripped by Python's `str.strip()` (non-ASCII
whitespace is outside the model). -/
def isPyWs (c : Char) : Bool :=
  c == ' ' || c == '\t' || c == '\n' || c == '\r' || c == '\x0b' || c == '\x0c'

/-- The four whitespace characters accepted between JSON tokens. -/
def isJsonWs (c : Char) : Bool :=
  c == ' ' || c == '\t' || c == '\n' || c == '\r'

def skipWs (s : Str) : Str := s.dropWhile isJsonWs

/-- Drop the trailing run of characters satisfying `p`. -/
def dropTrailing (p : Char → Bool) (s : Str) : Str :=
  (s.reverse.dropWhile p).reverse

/-- Python's `str.strip(chars)`: drop the characters satisfying `p` from
both ends. -/
def stripBoth (p : Char → Bool) (s : Str) : Str :=
  dropTrailing p (s.dropWhile p)

/-- Python's `str.strip()` with no argument. -/
def pyStrip (s : Str) : Str := stripBoth isPyWs s

/-- The backtick character. -/
def btChar : Char := Char.ofNat 96

/-- The three-character fence marker checked by `startswith` on line 204. -/
def fenceStr : Str := [btChar, btChar, btChar]

/-- `s.split(c, 1)[1]`: everything after the first occurrence of `c`
(callers establish that `c` occurs). -/
def afterChar (c : Char) : Str → Str
  | [] => []
  | x :: xs => if x = c then xs else afterChar c xs

/-- `"\n".join`, recursively. -/
def joinNl : List Str → Str
  | [] => []
  | [s] => s
  | s :: rest => s ++ '\n' :: joinNl rest

def strConcat : List Str → Str
  | [] => []
  | x :: xs => x ++ strConcat xs

def isDigitChar (c : Char) : Bool := '0' ≤ c && c ≤ '9'

/-- Python values produced by `json.loads` (JSON `null` is Python `None`,
modelled by `PyVal.none`).  Floats are outside the model. -/
inductive PyVal where
  | none
  | bool (b : Bool)
  | num (n : Int)
  | str (s : Str)
  | list (l : List PyVal)
  | dict (d : List (Str × PyVal))

def PyVal.isNone : PyVal → Bool
  | PyVal.none => true
  | _ => false

/-- `dict.get(k)` with the default `None`. -/
def dictGet (d : List (Str × PyVal)) (k : Str) : PyVal :=
  match d with
  | [] => PyVal.none
  | (k2, v) :: rest => if k2 = k then v else dictGet rest k

/-- Insertion with Python `dict` duplicate-key behaviour: an existing key
keeps its position but takes the later value. -/
def dictInsert (d : List (Str × PyVal)) (k : Str) (v : PyVal) : List (Str × PyVal) :=
  match d with
  | [] => [(k, v)]
  | (k2, v2) :: rest => if k2 = k then (k2, v) :: rest else (k2, v2) :: dictInsert rest k v

def hexVal (c : Char) : Option Nat :=
  if '0' ≤ c ∧ c ≤ '9' then some (c.toNat - 48)
  else if 'a' ≤ c ∧ c ≤ 'f' then some (c.toNat - 87)
  else if 'A' ≤ c ∧ c ≤ 'F' then some (c.toNat - 55)
  else Option.none

/-- The single-character JSON string escapes (`\uXXXX` is handled
separately). -/
def escChar (e : Char) : Option Char :=
  if e = '"' then some '"'
  else if e = '\\' then some '\\'
  else if e = '/' then some '/'
  else if e = 'b' then some '\x08'
  else if e = 'f' then some '\x0c'
  else if e = 'n' then some '\n'
  else if e = 'r' then some '\r'
  else if e = 't' then some '\t'
  else Option.none

/-- Body of a JSON string literal, after the opening quote.  Surrogate
`\u` escapes are outside the model. -/
def parseStrBody : Str → Option (Str × Str)
  | [] => Option.none
  | c :: rest =>
    if c = '"' then some ([], rest)
    else if c = '\\' then
      match rest with
      | [] => Option.none
      | e :: rest2 =>
        if e = 'u' then
          match rest2 with
          | h1 :: h2 :: h3 :: h4 :: rest3 =>
            match hexVal h1, hexVal h2, hexVal h3, hexVal h4 with
            | some a, some b, some c2, some d =>
              let n := ((a * 16 + b) * 16 + c2) * 16 + d
              if 0xD800 ≤ n ∧ n ≤ 0xDFFF then Option.none
              else (parseStrBody rest3).map (fun p => (Char.ofNat n :: p.1, p.2))
            | _, _, _, _ => Option.none
          | _ => Option.none
        else
          match escChar e with
          | some ch => (parseStrBody rest2).map (fun p => (ch :: p.1, p.2))
          | Option.none => Option.none
    else if c.toNat < 32 then Option.none
    else (parseStrBody rest).map (fun p => (c :: p.1, p.2))

def digitsToNat (s : Str) : Nat :=
  s.foldl (fun n c => 10 * n + (c.toNat - 48)) 0

/-- Unsigned integer literal: a digit run with JSON's leading-zero rule,
rejected when continued by a fraction or exponent (floats are outside the
model). -/
def parseNumCore (s : Str) : Option (Nat × Str) :=
  let digits := s.takeWhile isDigitChar
  let rest := s.dropWhile isDigitChar
  if digits = [] then Option.none
  else if 1 < digits.length ∧ digits.head? = some '0' then Option.none
  else
    match rest with
    | e :: _ =>
      if e = '.' ∨ e = 'e' ∨ e = 'E' then Option.none else some (digitsToNat digits, rest)
    | [] => some (digitsToNat digits, rest)

def parseNum (s : Str) : Option (PyVal × Str) :=
  match s with
  | '-' :: s1 => (parseNumCore s1).map (fun p => (PyVal.num (-(p.1 : Int)), p.2))
  | s1 => (parseNumCore s1).map (fun p => (PyVal.num (p.1 : Int), p.2))

mutual

/-- One JSON value at the head of the input (no leading whitespace),
returning the value and the unconsumed rest. -/
def parseValue : Nat → Str → Option (PyVal × Str)
  | 0, _ => Option.none
  | f + 1, s =>
    match s with
    | [] => Option.none
    | c :: rest =>
      if c = '\x7b' then
        match skipWs rest with
        | [] => Option.none
        | c2 :: r2 =>
          if c2 = '\x7d' then some (PyVal.dict [], r2) else parseMembers f [] (c2 :: r2)
      else if c = '[' then
        match skipWs rest with
        | [] => Option.none
        | c2 :: r2 =>
          if c2 = ']' then some (PyVal.list [], r2) else parseItems f [] (c2 :: r2)
      else if c = '"' then
        match parseStrBody rest with
        | some (cs, r) => some (PyVal.str cs, r)
        | Option.none => Option.none
      else if c = 't' then
        match rest with
        | c1 :: c2 :: c3 :: r =>
          if c1 = 'r' ∧ c2 = 'u' ∧ c3 = 'e' then some (PyVal.bool true, r) else Option.none
        | _ => Option.none
      else if c = 'f' then
        match rest with
        | c1 :: c2 :: c3 :: c4 :: r =>
          if c1 = 'a' ∧ c2 = 'l' ∧ c3 = 's' ∧ c4 = 'e' then some (PyVal.bool false, r)
          else Option.none
        | _ => Option.none
      else if c = 'n' then
        match rest with
        | c1 :: c2 :: c3 :: r =>
          if c1 = 'u' ∧ c2 = 'l' ∧ c3 = 'l' then some (PyVal.none, r) else Option.none
        | _ => Option.none
      else if c = '-' ∨ isDigitChar c then parseNum (c :: rest)
      else Option.none

/-- Members of a JSON object, positioned at a key. -/
def parseMembers : Nat → List (Str × PyVal) → Str → Option (PyVal × Str)
  | 0, _, _ => Option.none
  | f + 1, acc, s =>
    match s with
    | [] => Option.none
    | c :: rest =>
      if c = '"' then
        match parseStrBody rest with
        | some (key, r1) =>
          match skipWs r1 with
          | [] => Option.none
          | c2 :: r2 =>
            if c2 = ':' then
              match parseValue f (skipWs r2) with
              | some (v, r3) =>
                match skipWs r3 with
                | [] => Option.none
                | c3 :: r4 =>
                  if c3 = ',' then
                    match skipWs r4 with
                    | [] => Option.none
                    | c4 :: r5 => parseMembers f (dictInsert acc key v) (c4 :: r5)
                  else if c3 = '\x7d' then some (PyVal.dict (dictInsert acc key v), r4)
                  else Option.none
              | Option.none => Option.none
            else Option.none
        | Option.none => Option.none
      else Option.none

/-- Items of a JSON array, positioned at a value. -/
def parseItems : Nat → List PyVal → Str → Option (PyVal × Str)
  | 0, _, _ => Option.none
  | f + 1, acc, s =>
    match parseValue f s with
    | some (v, r) =>
      match skipWs r with
      | [] => Option.none
      | c :: r2 =>
        if c = ',' then parseItems f (acc ++ [v]) (skipWs r2)
        else if c = ']' then some (PyVal.list (acc ++ [v]), r2)
        else Option.none
    | Option.none => Option.none

end

/-- Model of `json.loads`: surrounding whitespace is ignored and the whole
input must be one JSON document. -/
def jsonParse (s : Str) : Option PyVal :=
  let core := dropTrailing isJsonWs (s.dropWhile isJsonWs)
  match parseValue (2 * core.length + 2) core with
  | some (v, r) => if r = [] then some v else Option.none
  | Option.none => Option.none

/-- Hexadecimal digit used by the `\u00XX` escapes that `json.dumps`
emits for control characters. -/
def hexDigit (n : Nat) : Char :=
  if n < 10 then Char.ofNat (48 + n) else Char.ofNat (87 + n)

def hexDigits4 (n : Nat) : Str :=
  [hexDigit (n / 4096 % 16), hexDigit (n / 256 % 16), hexDigit (n / 16 % 16), hexDigit (n % 16)]

/-- Escaping of one character inside a `json.dumps` string (with
`ensure_ascii=False`). -/
def escSeq (c : Char) : Str :=
  if c = '"' then ['\\', '"']
  else if c = '\\' then ['\\', '\\']
  else if c = '\n' then ['\\', 'n']
  else if c = '\t' then ['\\', 't']
  else if c = '\r' then ['\\', 'r']
  else if c = '\x08' then ['\\', 'b']
  else if c = '\x0c' then ['\\', 'f']
  else if c.toNat < 32 then '\\' :: 'u' :: hexDigits4 c.toNat
  else [c]

def dumpStr (s : Str) : Str :=
  '"' :: strConcat (s.map escSeq) ++ ['"']

mutual

/-- Model of `json.dumps(..., ensure_ascii=False)` with the default
separators. -/
def pyDumps : PyVal → Str
  | PyVal.none => "null".data
  | PyVal.bool true => "true".data
  | PyVal.bool false => "false".data
  | PyVal.num n => (toString n).data
  | PyVal.str s => dumpStr s
  | PyVal.list l => '[' :: pyDumpsItems l ++ [']']
  | PyVal.dict d => '\x7b' :: pyDumpsPairs d ++ ['\x7d']

def pyDumpsItems : List PyVal → Str
  | [] => []
  | [v] => pyDumps v
  | v :: rest => pyDumps v ++ ',' :: ' ' :: pyDumpsItems rest

def pyDumpsPairs : List (Str × PyVal) → Str
  | [] => []
  | [(k, v)] => dumpStr k ++ ':' :: ' ' :: pyDumps v
  | (k, v) :: rest => dumpStr k ++ ':' :: ' ' :: pyDumps v ++ ',' :: ' ' :: pyDumpsPairs rest

end

/-- Value returned by the Gemini callable: `response.text` is a string, or
some non-string Python value whose `str()` rendering is recorded
(`isinstance(model_output, str)` is checked on line 201). -/
inductive MOut where
  | str (s : Str)
  | nonStr (asStr : Str)

/-- Outcome of the external PDF reader on one file: the per-page
`extract_text()` results (`Option.none` for a page with no text), or an
exception with its message. -/
inductive PdfOutcome where
  | pages (ps : List (Option Str))
  | failure (msg : Str)

structure PdfFile where
  outcome : PdfOutcome

/-- The external collaborators of the application: the prompt contract
text loaded at start-up, the availability of PyPDF2 and of the two Gemini
SDK bindings, and the network behaviour of each binding as a function of
API key and prompt (an `Except.error` is a raised exception, carrying
`str(exc)`). -/
structure AppEnv where
  promptContract : Str
  pdfReaderAvailable : Bool
  genaiAvailable : Bool
  genaiCall : Str → Str → Except Str MOut
  generativeaiAvailable : Bool
  generativeaiCall : Str → Str → Except Str MOut

/-- The module-level globals of `app.py` (lines 78-83). -/
structure AppState where
  pdf_text_content : Str
  api_key : Str
  gemini_call : Option (Str → Except Str MOut)
  conversation_logs : List Str
  answer_json_log : List Str
  answer_structured_log : List PyVal

def initialState : AppState :=
  { pdf_text_content := [], api_key := [], gemini_call := Option.none,
    conversation_logs := [], answer_json_log := [], answer_structured_log := [] }

/-- `parse_pdf` (lines 86-109). -/
def parse_pdf (env : AppEnv) (file_obj : Option PdfFile) : Str :=
  match file_obj with
  | Option.none => []
  | some f =>
    if env.pdfReaderAvailable = false then
      "PyPDF2 is not installed. Please install it via pip to enable PDF parsing.".data
    else
      match f.outcome with
      | PdfOutcome.failure exc => "Error parsing PDF: ".data ++ exc
      | PdfOutcome.pages ps => strConcat (ps.map (fun p => p.getD [] ++ ['\n']))

inductive ClientKind where
  | withGenai
  | withGenerativeai
  | stub

def stubMessage : Str :=
  "Neither google‑genai nor google‑generativeai is installed. Please install one of these packages to enable Gemini API calls.".data

def cfgErrMsg : Str :=
  "API key is required to initialise the Gemini client.".data

/-- `init_gemini_client` (lines 112-146).  The global `api_key` is set
before the emptiness check; an empty key raises `ValueError` (the
`Except.error` branch).  Otherwise the preferred available binding is
turned into a callable, falling back to the stub. -/
def init_gemini_client (env : AppEnv) (provided_key : Str) (st : AppState) :
    AppState × Except Str (ClientKind × (Str → Except Str MOut)) :=
  let st1 := { st with api_key := provided_key }
  if provided_key = [] then
    (st1, Except.error cfgErrMsg)
  else if env.genaiAvailable then
    (st1, Except.ok (ClientKind.withGenai, env.genaiCall provided_key))
  else if env.generativeaiAvailable then
    (st1, Except.ok (ClientKind.withGenerativeai, env.generativeaiCall provided_key))
  else
    (st1, Except.ok (ClientKind.stub, fun _ => Except.ok (MOut.str stubMessage)))

def uploadNoFileMsg : Str := "Please upload a PDF file.".data

def uploadNoKeyMsg : Str := "Please provide your Gemini API key.".data

def uploadParseFailMsg : Str :=
  "Failed to parse PDF or PDF contained no extractable text.".data

def uploadOkMsg : Str :=
  "PDF loaded and API key set. You can now ask questions about the document.".data

def initEventEntry : Str :=
  pyDumps (PyVal.dict
    [("event".data, PyVal.str "initialised".data),
     ("message".data, PyVal.str "Loaded PDF and API key".data)])

/-- `upload_and_prepare` (lines 149-166).  The second component is the
status message; an `Except.error` is a propagated exception from
`init_gemini_client` (unreachable because the key was checked). -/
def upload_and_prepare (env : AppEnv) (pdf_file : Option PdfFile) (user_api_key : Str)
    (st : AppState) : AppState × Except Str Str :=
  if pdf_file.isNone then (st, Except.ok uploadNoFileMsg)
  else if user_api_key = [] then (st, Except.ok uploadNoKeyMsg)
  else
    let st1 := { st with pdf_text_content := parse_pdf env pdf_file }
    if st1.pdf_text_content = [] then (st1, Except.ok uploadParseFailMsg)
    else
      match init_gemini_client env user_api_key st1 with
      | (st2, Except.error e) => (st2, Except.error e)
      | (st2, Except.ok (_, call)) =>
        ({ st2 with gemini_call := some call,
                    conversation_logs := st2.conversation_logs ++ [initEventEntry] },
         Except.ok uploadOkMsg)

def notReadyMsgPdf : Str :=
  "Please upload a PDF and set your API key before asking questions.".data

def notReadyMsgKey : Str :=
  "API key is missing. Please upload a PDF and provide your key first.".data

def noClientMsg : Str := "Gemini client is not initialised.".data

def apiErrPre : Str := "Error calling Gemini API: ".data

/-- Lines 202-207: trim whitespace; if the text begins with a triple
backtick fence, strip all backticks from both ends and, when a newline
remains, drop everything up to and including the first newline. -/
def stripFence (s : Str) : Str :=
  let stripped := pyStrip s
  if fenceStr.isPrefixOf stripped then
    let s2 := stripBoth (fun c => c == btChar) stripped
    if s2.contains '\n' then afterChar '\n' s2 else s2
  else stripped

/-- A JSON text wrapped in triple-backtick fences with a leading language
tag line, the shape addressed by the fence-stripping heuristic. -/
def fencedWrap (tag t : Str) : Str :=
  fenceStr ++ tag ++ '\n' :: t ++ '\n' :: fenceStr

/-- An environment with no SDK bindings available, used to instantiate
theorems at concrete inputs. -/
def plainEnv : AppEnv :=
  { promptContract := [], pdfReaderAvailable := true,
    genaiAvailable := false, genaiCall := fun _ _ => Except.error [],
    generativeaiAvailable := false, generativeaiCall := fun _ _ => Except.error [] }

/-- Lines 208-216: attempt `json.loads`; only a decoded dict reaches
`parsed.get("answer")` (on a non-dict the `.get` raises and the `except`
branch runs).  Returns the `final_answer` value before the `None`
fallback, and the entry appended to `answer_structured_log`. -/
def respParse (stripped : Str) : PyVal × PyVal :=
  match jsonParse stripped with
  | some (PyVal.dict d) => (dictGet d "answer".data, PyVal.dict d)
  | _ => (PyVal.none, PyVal.dict [("raw".data, PyVal.str stripped)])

/-- Line 190: `"\n".join([system_prompt, document_context, user_message])`
with `document_context = "Document contents:\n" + pdf_text_content + "\n"`. -/
def composePrompt (env : AppEnv) (st : AppState) (user_message : Str) : Str :=
  joinNl [env.promptContract,
          "Document contents:\n".data ++ st.pdf_text_content ++ ['\n'],
          user_message]

/-- The values produced by one invocation of `chat`.  `rawStream` is the
third returned value; it is `Option.none` on the two early returns (lines
183 and 186), which return only two values.  `modelCalls` counts the
invocations of `gemini_call` and `prompts` records the argument of each,
observations used to state the specification. -/
structure ChatResult where
  state : AppState
  history : List (Str × PyVal)
  cleared : Str
  rawStream : Option Str
  modelCalls : Nat
  prompts : List Str

/-- Lines 219-224: append the turn summary to `conversation_logs`, append
`(user_message, final_answer)` to the history, and return the history, an
empty string and the joined raw log. -/
def mkResult (st1 : AppState) (q : Str) (hist : List (Str × PyVal)) (final_answer : PyVal)
    (calls : Nat) (prompts : List Str) : ChatResult :=
  let st2 := { st1 with conversation_logs := st1.conversation_logs ++
      [pyDumps (PyVal.dict [("user".data, PyVal.str q), ("answer".data, final_answer)])] }
  { state := st2, history := hist ++ [(q, final_answer)], cleared := [],
    rawStream := some (joinNl st2.answer_json_log), modelCalls := calls, prompts := prompts }

/-- Lines 200-224, from `model_output` onwards.  A string output goes
through fence stripping and the decode attempt, appending to both logs; a
non-string output skips that block and `str(model_output)` becomes the
answer. -/
def chatFinish (st : AppState) (q : Str) (hist : List (Str × PyVal)) (model_output : MOut)
    (calls : Nat) (prompts : List Str) : ChatResult :=
  match model_output with
  | MOut.nonStr r => mkResult st q hist (PyVal.str r) calls prompts
  | MOut.str s =>
    let stripped := stripFence s
    let fa := (respParse stripped).1
    let final_answer := if fa.isNone then PyVal.str s else fa
    let st1 := { st with
        answer_json_log := st.answer_json_log ++ [stripped],
        answer_structured_log := st.answer_structured_log ++ [(respParse stripped).2] }
    mkResult st1 q hist final_answer calls prompts

/-- Lines 187-199: compose the prompt and call the model, substituting the
fixed message when no client is bound and an error string when the call
raises. -/
def chatReady (env : AppEnv) (st : AppState) (q : Str) (hist : List (Str × PyVal)) : ChatResult :=
  match st.gemini_call with
  | Option.none => chatFinish st q hist (MOut.str noClientMsg) 0 []
  | some f =>
    match f (composePrompt env st q) with
    | Except.ok o => chatFinish st q hist o 1 [composePrompt env st q]
    | Except.error exc =>
      chatFinish st q hist (MOut.str (apiErrPre ++ exc)) 1 [composePrompt env st q]

/-- `chat` (lines 169-224). -/
def chat (env : AppEnv) (st : AppState) (user_message : Str)
    (history : List (Str × PyVal)) : ChatResult :=
  if st.pdf_text_content = [] then
    { state := st, history := history ++ [(user_message, PyVal.str notReadyMsgPdf)],
      cleared := [], rawStream := Option.none, modelCalls := 0, prompts := [] }
  else if st.api_key = [] then
    { state := st, history := history ++ [(user_message, PyVal.str notReadyMsgKey)],
      cleared := [], rawStream := Option.none, modelCalls := 0, prompts := [] }
  else
    chatReady env st user_message history

/-- `view_logs` (lines 227-235). -/
def view_logs (st : AppState) : Str :=
  if st.answer_json_log ≠ [] then joinNl st.answer_json_log
  else if st.conversation_logs ≠ [] then joinNl st.conversation_logs
  else "No logs available yet.".data

/-- `get_structured_logs` (lines 238-242). -/
def get_structured_logs (st : AppState) : List PyVal :=
  st.answer_structured_log

/-- `get_raw_logs` (lines 245-249). -/
def get_raw_logs (st : AppState) : Str :=
  if st.answer_json_log ≠ [] then joinNl st.answer_json_log else []

/-- One user interaction: the Setup button or a submitted question. -/
inductive AppEvent where
  | upload (pdf : Option PdfFile) (key : Str)
  | ask (q : Str)

def stepEvent (env : AppEnv) (st : AppState) (hist : List (Str × PyVal)) :
    AppEvent → AppState × List (Str × PyVal)
  | AppEvent.upload p k => ((upload_and_prepare env p k st).1, hist)
  | AppEvent.ask q =>
    let r := chat env st q hist
    (r.state, r.history)

def runEvents (env : AppEnv) (st : AppState) (hist : List (Str × PyVal)) :
    List AppEvent → AppState × List (Str × PyVal)
  | [] => (st, hist)
  | e :: es =>
    let p := stepEvent env st hist e
    runEvents env p.1 p.2 es

/-- The parsed-log entry determined by a raw-log entry. -/
def parsedOf (raw : Str) : PyVal := (respParse raw).2

/-- Index alignment of the raw-reply and parsed-reply logs: the parsed log
is exactly the image of the raw log under the decode step. -/
def logsAligned (st : AppState) : Prop :=
  st.answer_structured_log = st.answer_json_log.map parsedOf

theorem dropWhile_append_ne {p : Char → Bool} {l : Str} (r : Str)
    (h : l.dropWhile p ≠ []) : (l ++ r).dropWhile p = l.dropWhile p ++ r := by
  induction l with
  | nil => simp at h
  | cons c l ih =>
    by_cases hc : p c
    · simp only [List.cons_append, List.dropWhile_cons_of_pos hc] at *
      exact ih h
    · simp [List.dropWhile_cons_of_neg hc]

theorem dropWhile_append_nil {p : Char → Bool} {l : Str} (r : Str)
    (h : l.dropWhile p = []) : (l ++ r).dropWhile p = r.dropWhile p := by
  induction l with
  | nil => simp
  | cons c l ih =>
    by_cases hc : p c
    · simp only [List.dropWhile_cons_of_pos hc] at h
      simp only [List.cons_append, List.dropWhile_cons_of_pos hc]
      exact ih h
    · simp [List.dropWhile_cons_of_neg hc] at h

theorem dropTrailing_append_pos {p : Char → Bool} (l : Str) {c : Char} (h : p c = true) :
    dropTrailing p (l ++ [c]) = dropTrailing p l := by
  simp [dropTrailing, List.reverse_append, List.dropWhile_cons_of_pos h]

theorem dropTrailing_append_neg {p : Char → Bool} (l : Str) {c : Char} (h : p c = false) :
    dropTrailing p (l ++ [c]) = l ++ [c] := by
  simp [dropTrailing, List.reverse_append,
        List.dropWhile_cons_of_neg (by simp [h] : ¬ p c = true)]

/-- Appending a newline to the input of `json.loads` does not change the
result: the trailing-whitespace trim absorbs it. -/
theorem jsonParse_append_nl (t : Str) : jsonParse (t ++ ['\n']) = jsonParse t := by
  have hnl : isJsonWs '\n' = true := by decide
  by_cases h : t.dropWhile isJsonWs = []
  · have h1 : (t ++ ['\n']).dropWhile isJsonWs = [] := by
      rw [dropWhile_append_nil _ h]
      simp [List.dropWhile_cons_of_pos hnl]
    simp [jsonParse, h, h1]
  · have h1 : (t ++ ['\n']).dropWhile isJsonWs = t.dropWhile isJsonWs ++ ['\n'] :=
      dropWhile_append_ne _ h
    simp [jsonParse, h1, dropTrailing_append_pos _ hnl]

theorem parseNum_isNum {s : Str} {v : PyVal} {r : Str}
    (h : parseNum s = some (v, r)) : ∃ n, v = PyVal.num n := by
  unfold parseNum at h
  split at h
  · cases hc : parseNumCore _ with
    | none => rw [hc] at h; simp at h
    | some p => rw [hc] at h; simp at h; exact ⟨_, h.1.symm⟩
  · cases hc : parseNumCore _ with
    | none => rw [hc] at h; simp at h
    | some p => rw [hc] at h; simp at h; exact ⟨_, h.1.symm⟩

theorem parseItems_isList : ∀ (f : Nat) (acc : List PyVal) (u : Str) (v : PyVal) (r : Str),
    parseItems f acc u = some (v, r) → ∃ l, v = PyVal.list l := by
  intro f
  induction f with
  | zero => intro acc u v r h; simp [parseItems] at h
  | succ f ih =>
    intro acc u v r h
    simp only [parseItems] at h
    split at h
    · split at h
      · simp at h
      · split at h
        · exact ih _ _ _ _ h
        · split at h
          · simp at h
            exact ⟨_, h.1.symm⟩
          · simp at h
    · simp at h

theorem parseMembers_isDict : ∀ (f : Nat) (acc : List (Str × PyVal)) (u : Str) (v : PyVal)
    (r : Str), parseMembers f acc u = some (v, r) → ∃ d, v = PyVal.dict d := by
  intro f
  induction f with
  | zero => intro acc u v r h; simp [parseMembers] at h
  | succ f ih =>
    intro acc u v r h
    simp only [parseMembers] at h
    split at h
    · simp at h
    · split at h
      · split at h
        · split at h
          · simp at h
          · split at h
            · split at h
              · split at h
                · simp at h
                · split at h
                  · split at h
                    · simp at h
                    · exact ih _ _ _ _ h
                  · split at h
                    · simp at h
                      exact ⟨_, h.1.symm⟩
                    · simp at h
              · simp at h
            · simp at h
        · simp at h
      · simp at h

/-- Only an input beginning with `{` can parse to a JSON object. -/
theorem parseValue_dict_head {f : Nat} {u : Str} {d : List (Str × PyVal)} {r : Str}
    (h : parseValue f u = some (PyVal.dict d, r)) : ∃ u2, u = '\x7b' :: u2 := by
  cases f with
  | zero => simp [parseValue] at h
  | succ f =>
    cases u with
    | nil => simp [parseValue] at h
    | cons c rest =>
      refine ⟨rest, ?_⟩
      by_cases hc : c = '\x7b'
      · rw [hc]
      · exfalso
        simp only [parseValue, if_neg hc] at h
        split at h
        · -- c = '['
          split at h
          · simp at h
          · split at h
            · simp at h
            · obtain ⟨l, hl⟩ := parseItems_isList _ _ _ _ _ h
              cases hl
        · split at h
          · -- c = '"'
            split at h
            · simp at h
            · simp at h
          · split at h
            · -- c = 't'
              split at h
              · split at h
                · simp at h
                · simp at h
              · simp at h
            · split at h
              · -- c = 'f'
                split at h
                · split at h
                  · simp at h
                  · simp at h
                · simp at h
              · split at h
                · -- c = 'n'
                  split at h
                  · split at h
                    · simp at h
                    · simp at h
                  · simp at h
                · split at h
                  · obtain ⟨n, hn⟩ := parseNum_isNum h
                    cases hn
                  · simp at h

theorem length_dropWhile_le (p : Char → Bool) (l : Str) :
    (l.dropWhile p).length ≤ l.length := by
  induction l with
  | nil => simp
  | cons c l ih =>
    by_cases hc : p c
    · simp only [List.dropWhile_cons_of_pos hc]
      exact Nat.le_trans ih (Nat.le_succ _)
    · simp [List.dropWhile_cons_of_neg hc]

theorem length_dropTrailing_le (p : Char → Bool) (l : Str) :
    (dropTrailing p l).length ≤ l.length := by
  have := length_dropWhile_le p l.reverse
  simpa [dropTrailing] using this

theorem pyStrip_head {c : Char} {t2 : Str} (h : pyStrip (c :: t2) = c :: t2) :
    isPyWs c = false := by
  by_contra hc
  have hc2 : isPyWs c = true := by
    cases h2 : isPyWs c
    · exact absurd h2 hc
    · rfl
  have h3 : pyStrip (c :: t2) = dropTrailing isPyWs (t2.dropWhile isPyWs) := by
    simp [pyStrip, stripBoth, List.dropWhile_cons_of_pos hc2]
  have h4 : (pyStrip (c :: t2)).length ≤ t2.length :=
    h3 ▸ Nat.le_trans (length_dropTrailing_le _ _) (length_dropWhile_le _ _)
  rw [h] at h4
  simp at h4

theorem jsonWs_imp_pyWs {c : Char} (h : isJsonWs c = true) : isPyWs c = true := by
  simp only [isJsonWs, Bool.or_eq_true, beq_iff_eq] at h
  rcases h with ((h | h) | h) | h <;> subst h <;> decide

theorem dropTrailing_decomp (p : Char → Bool) (l : Str) :
    ∃ w, l = dropTrailing p l ++ w ∧ ∀ c ∈ w, p c = true := by
  refine ⟨(l.reverse.takeWhile p).reverse, ?_, ?_⟩
  · simp only [dropTrailing]
    rw [← List.reverse_append, List.takeWhile_append_dropWhile, List.reverse_reverse]
  · intro c hc
    simp only [List.mem_reverse] at hc
    exact List.mem_takeWhile_imp hc

/-- A successfully decoded JSON object text with no surrounding
whitespace begins with `{`. -/
theorem jsonParse_dict_head {t : Str} {d : List (Str × PyVal)}
    (hp : jsonParse t = some (PyVal.dict d)) (hs : pyStrip t = t) :
    ∃ t2, t = '\x7b' :: t2 := by
  simp only [jsonParse] at hp
  split at hp
  · next v r hpv =>
    split at hp
    · next hr =>
      simp only [Option.some.injEq] at hp
      subst hp
      subst hr
      obtain ⟨u2, hu2⟩ := parseValue_dict_head hpv
      obtain ⟨w, hw, _⟩ := dropTrailing_decomp isJsonWs (t.dropWhile isJsonWs)
      rw [hu2] at hw
      cases t with
      | nil => simp at hw
      | cons c t2 =>
        have hpy : isPyWs c = false := pyStrip_head hs
        have hjs : isJsonWs c = false := by
          cases h2 : isJsonWs c
          · rfl
          · rw [jsonWs_imp_pyWs h2] at hpy; cases hpy
        rw [List.dropWhile_cons_of_neg (by simp [hjs])] at hw
        have := List.head_eq_of_cons_eq hw.symm
        exact ⟨t2, by rw [← this]⟩
    · cases hp
  · cases hp

theorem dropWhile_append_head_neg {p : Char → Bool} {a b : Str}
    (h : ∀ c ∈ a, p c = false) (hb : b.dropWhile p = b) :
    (a ++ b).dropWhile p = a ++ b := by
  cases a with
  | nil => simpa using hb
  | cons c a =>
    have hc : p c = false := h c (by simp)
    have hc2 : ¬ p c = true := by simp [hc]
    simp [List.dropWhile_cons_of_neg hc2]

theorem afterChar_through {c : Char} {a : Str} (rest : Str) (h : c ∉ a) :
    afterChar c (a ++ c :: rest) = rest := by
  induction a with
  | nil => simp [afterChar]
  | cons x a ih =>
    have hx : x ≠ c := by
      intro he
      exact h (by simp [he])
    simp only [List.cons_append, afterChar, if_neg hx]
    exact ih (fun hm => h (by simp [hm]))

theorem fencedWrap_shape (tag t : Str) :
    fencedWrap tag t =
      btChar :: ((btChar :: btChar :: tag ++ '\n' :: t ++ ['\n', btChar, btChar]) ++ [btChar]) := by
  simp [fencedWrap, fenceStr]

theorem pyStrip_bt_ends (X : Str) :
    pyStrip (btChar :: (X ++ [btChar])) = btChar :: (X ++ [btChar]) := by
  unfold pyStrip stripBoth
  rw [List.dropWhile_cons_of_neg (by decide)]
  have e : btChar :: (X ++ [btChar]) = (btChar :: X) ++ [btChar] := by simp
  rw [e, dropTrailing_append_neg _ (by decide : isPyWs btChar = false)]

theorem pyStrip_fencedWrap (tag t : Str) :
    pyStrip (fencedWrap tag t) = fencedWrap tag t := by
  rw [fencedWrap_shape]
  exact pyStrip_bt_ends _

theorem fence_isPrefixOf_fencedWrap (tag t : Str) :
    fenceStr.isPrefixOf (fencedWrap tag t) = true := by
  rw [fencedWrap_shape]
  simp [fenceStr, List.isPrefixOf_cons₂]

theorem stripBoth_bt_fencedWrap {tag : Str} (t : Str) (hbt : btChar ∉ tag) :
    stripBoth (fun c => c == btChar) (fencedWrap tag t) = tag ++ '\n' :: (t ++ ['\n']) := by
  unfold stripBoth
  have hdw : (fencedWrap tag t).dropWhile (fun c => c == btChar) =
      tag ++ '\n' :: (t ++ '\n' :: fenceStr) := by
    have e : fencedWrap tag t =
        btChar :: btChar :: btChar :: (tag ++ '\n' :: (t ++ '\n' :: fenceStr)) := by
      simp [fencedWrap, fenceStr]
    rw [e]
    rw [List.dropWhile_cons_of_pos (by simp), List.dropWhile_cons_of_pos (by simp),
        List.dropWhile_cons_of_pos (by simp)]
    refine dropWhile_append_head_neg ?_ ?_
    · intro c hc
      have : c ≠ btChar := fun he => hbt (he ▸ hc)
      simp [this]
    · rw [List.dropWhile_cons_of_neg (by decide)]
  rw [hdw]
  have e2 : tag ++ '\n' :: (t ++ '\n' :: fenceStr) =
      (((tag ++ '\n' :: (t ++ ['\n'])) ++ [btChar]) ++ [btChar]) ++ [btChar] := by
    simp [fenceStr]
  have hpos := fun (l : Str) =>
    @dropTrailing_append_pos (fun c => c == btChar) l btChar (by decide)
  rw [e2, hpos, hpos, hpos]
  have e3 : tag ++ '\n' :: (t ++ ['\n']) = (tag ++ '\n' :: t) ++ ['\n'] := by simp
  rw [e3, @dropTrailing_append_neg (fun c => c == btChar) (tag ++ '\n' :: t) '\n' (by decide)]

/-- Fence stripping on a fenced JSON text with a language tag line yields
the enclosed text followed by the newline that preceded the closing
fence. -/
theorem stripFence_fenced {tag : Str} (t : Str) (hbt : btChar ∉ tag) (hnl : '\n' ∉ tag) :
    stripFence (fencedWrap tag t) = t ++ ['\n'] := by
  simp only [stripFence, pyStrip_fencedWrap, fence_isPrefixOf_fencedWrap, if_true,
             stripBoth_bt_fencedWrap t hbt]
  have hcon : (tag ++ '\n' :: (t ++ ['\n'])).contains '\n' = true := by
    simp [List.contains]
  rw [hcon, if_pos rfl]
  exact afterChar_through _ hnl

/-- Fence stripping is the identity on a whitespace-trimmed text that does
not begin with a fence. -/
theorem stripFence_plain {t t2 : Str} (hs : pyStrip t = t) (hh : t = '\x7b' :: t2) :
    stripFence t = t := by
  simp only [stripFence, hs]
  rw [hh]
  simp [fenceStr, List.isPrefixOf_cons₂, btChar]

theorem mkResult_history (st1 : AppState) (q : Str) (hist : List (Str × PyVal)) (fa : PyVal)
    (c : Nat) (pr : List Str) : (mkResult st1 q hist fa c pr).history = hist ++ [(q, fa)] := rfl

theorem mkResult_json_log (st1 : AppState) (q : Str) (hist : List (Str × PyVal)) (fa : PyVal)
    (c : Nat) (pr : List Str) :
    (mkResult st1 q hist fa c pr).state.answer_json_log = st1.answer_json_log := rfl

theorem mkResult_structured_log (st1 : AppState) (q : Str) (hist : List (Str × PyVal))
    (fa : PyVal) (c : Nat) (pr : List Str) :
    (mkResult st1 q hist fa c pr).state.answer_structured_log = st1.answer_structured_log := rfl

theorem mkResult_calls (st1 : AppState) (q : Str) (hist : List (Str × PyVal)) (fa : PyVal)
    (c : Nat) (pr : List Str) : (mkResult st1 q hist fa c pr).modelCalls = c := rfl

theorem mkResult_prompts (st1 : AppState) (q : Str) (hist : List (Str × PyVal)) (fa : PyVal)
    (c : Nat) (pr : List Str) : (mkResult st1 q hist fa c pr).prompts = pr := rfl

/-- In the Ready state with a bound client returning the string `s`, one
turn of `chat` evaluates to a single `mkResult` application. -/
theorem chat_str_run (env : AppEnv) (st : AppState) (q : Str) (hist : List (Str × PyVal))
    (f : Str → Except Str MOut) (s : Str)
    (hpdf : st.pdf_text_content ≠ []) (hkey : st.api_key ≠ [])
    (hf : st.gemini_call = some f)
    (hout : f (composePrompt env st q) = Except.ok (MOut.str s)) :
    chat env st q hist =
      mkResult
        { st with answer_json_log := st.answer_json_log ++ [stripFence s],
                  answer_structured_log :=
                    st.answer_structured_log ++ [(respParse (stripFence s)).2] }
        q hist
        (if (respParse (stripFence s)).1.isNone then PyVal.str s
         else (respParse (stripFence s)).1)
        1 [composePrompt env st q] := by
  simp only [chat, if_neg hpdf, if_neg hkey, chatReady, hf, hout, chatFinish]

/-- C1: whenever the raw model output, after trimming and fence
stripping, decodes as a JSON object whose `"answer"` key holds a non-null
value, that value is the answer displayed in the transcript for the turn,
and the decoded object itself is the entry appended to the parsed-reply
log. -/
theorem chat_json_answer_displayed_and_logged (env : AppEnv) (st : AppState) (q : Str)
    (hist : List (Str × PyVal)) (f : Str → Except Str MOut) (s : Str)
    (d : List (Str × PyVal)) (v : PyVal)
    (hpdf : st.pdf_text_content ≠ []) (hkey : st.api_key ≠ [])
    (hf : st.gemini_call = some f)
    (hout : f (composePrompt env st q) = Except.ok (MOut.str s))
    (hparse : jsonParse (stripFence s) = some (PyVal.dict d))
    (hv : dictGet d "answer".data = v) (hnn : v.isNone = false) :
    (chat env st q hist).history = hist ++ [(q, v)] ∧
    (chat env st q hist).state.answer_structured_log =
      st.answer_structured_log ++ [PyVal.dict d] := by
  have hrp : respParse (stripFence s) = (v, PyVal.dict d) := by
    simp [respParse, hparse, hv]
  rw [chat_str_run env st q hist f s hpdf hkey hf hout]
  rw [mkResult_history, mkResult_structured_log]
  simp [hrp, hnn]

theorem chat_json_answer_displayed_and_logged_witness :
    (chat plainEnv
        { pdf_text_content := "D".data, api_key := "k".data,
          gemini_call := some (fun _ => Except.ok (MOut.str "\x7b\"answer\": \"yes\"\x7d".data)),
          conversation_logs := [], answer_json_log := [], answer_structured_log := [] }
        "q".data []).history = [("q".data, PyVal.str "yes".data)] ∧
    (chat plainEnv
        { pdf_text_content := "D".data, api_key := "k".data,
          gemini_call := some (fun _ => Except.ok (MOut.str "\x7b\"answer\": \"yes\"\x7d".data)),
          conversation_logs := [], answer_json_log := [], answer_structured_log := [] }
        "q".data []).state.answer_structured_log =
      [PyVal.dict [("answer".data, PyVal.str "yes".data)]] := by
  have h := chat_json_answer_displayed_and_logged plainEnv
    { pdf_text_content := "D".data, api_key := "k".data,
      gemini_call := some (fun _ => Except.ok (MOut.str "\x7b\"answer\": \"yes\"\x7d".data)),
      conversation_logs := [], answer_json_log := [], answer_structured_log := [] }
    "q".data [] (fun _ => Except.ok (MOut.str "\x7b\"answer\": \"yes\"\x7d".data))
    "\x7b\"answer\": \"yes\"\x7d".data
    [("answer".data, PyVal.str "yes".data)] (PyVal.str "yes".data)
    (by decide) (by decide) rfl rfl (by rfl) rfl rfl
  simpa using h

/-- C2: in the Ready state (non-empty document text and key, bound
callable), one submitted question issues exactly one model call, whose
prompt is the contract, then the header `"Document contents:\n"` followed
by the document text and a newline, then the question, joined by single
newlines in that order. -/
theorem chat_single_call_prompt_composition (env : AppEnv) (st : AppState) (q : Str)
    (hist : List (Str × PyVal)) (f : Str → Except Str MOut)
    (hpdf : st.pdf_text_content ≠ []) (hkey : st.api_key ≠ [])
    (hf : st.gemini_call = some f) :
    (chat env st q hist).modelCalls = 1 ∧
    (chat env st q hist).prompts =
      [env.promptContract ++ '\n' ::
        (("Document contents:\n".data ++ st.pdf_text_content ++ ['\n']) ++ '\n' :: q)] := by
  have hjoin : composePrompt env st q =
      env.promptContract ++ '\n' ::
        (("Document contents:\n".data ++ st.pdf_text_content ++ ['\n']) ++ '\n' :: q) := by
    simp [composePrompt, joinNl]
  simp only [chat, if_neg hpdf, if_neg hkey, chatReady, hf]
  cases hc : f (composePrompt env st q) with
  | ok o =>
    cases o with
    | str s => simp [chatFinish, mkResult_calls, mkResult_prompts, hjoin]
    | nonStr r => simp [chatFinish, mkResult_calls, mkResult_prompts, hjoin]
  | error e => simp [chatFinish, mkResult_calls, mkResult_prompts, hjoin]

theorem chat_single_call_prompt_composition_witness :
    (chat plainEnv
        { pdf_text_content := "D".data, api_key := "k".data,
          gemini_call := some (fun _ => Except.ok (MOut.str "x".data)),
          conversation_logs := [], answer_json_log := [], answer_structured_log := [] }
        "q".data []).modelCalls = 1 ∧
    (chat plainEnv
        { pdf_text_content := "D".data, api_key := "k".data,
          gemini_call := some (fun _ => Except.ok (MOut.str "x".data)),
          conversation_logs := [], answer_json_log := [], answer_structured_log := [] }
        "q".data []).prompts = ["\nDocument contents:\nD\n\nq".data] := by
  have h := chat_single_call_prompt_composition plainEnv
    { pdf_text_content := "D".data, api_key := "k".data,
      gemini_call := some (fun _ => Except.ok (MOut.str "x".data)),
      conversation_logs := [], answer_json_log := [], answer_structured_log := [] }
    "q".data [] (fun _ => Except.ok (MOut.str "x".data)) (by decide) (by decide) rfl
  refine ⟨h.1, ?_⟩
  rw [h.2]
  decide

/-- C4: when the stripped model output is not valid JSON, the original
raw output is displayed verbatim as the answer, and the parsed-reply log
receives the single-key mapping from `"raw"` to the stripped text. -/
theorem chat_invalid_json_raw_fallback (env : AppEnv) (st : AppState) (q : Str)
    (hist : List (Str × PyVal)) (f : Str → Except Str MOut) (s : Str)
    (hpdf : st.pdf_text_content ≠ []) (hkey : st.api_key ≠ [])
    (hf : st.gemini_call = some f)
    (hout : f (composePrompt env st q) = Except.ok (MOut.str s))
    (hparse : jsonParse (stripFence s) = Option.none) :
    (chat env st q hist).history = hist ++ [(q, PyVal.str s)] ∧
    (chat env st q hist).state.answer_structured_log =
      st.answer_structured_log ++
        [PyVal.dict [("raw".data, PyVal.str (stripFence s))]] := by
  have hrp : respParse (stripFence s) =
      (PyVal.none, PyVal.dict [("raw".data, PyVal.str (stripFence s))]) := by
    simp [respParse, hparse]
  rw [chat_str_run env st q hist f s hpdf hkey hf hout]
  rw [mkResult_history, mkResult_structured_log]
  simp [hrp, PyVal.isNone]

theorem chat_invalid_json_raw_fallback_witness :
    (chat plainEnv
        { pdf_text_content := "D".data, api_key := "k".data,
          gemini_call := some (fun _ => Except.ok (MOut.str "oops".data)),
          conversation_logs := [], answer_json_log := [], answer_structured_log := [] }
        "q".data []).history = [("q".data, PyVal.str "oops".data)] ∧
    (chat plainEnv
        { pdf_text_content := "D".data, api_key := "k".data,
          gemini_call := some (fun _ => Except.ok (MOut.str "oops".data)),
          conversation_logs := [], answer_json_log := [], answer_structured_log := [] }
        "q".data []).state.answer_structured_log =
      [PyVal.dict [("raw".data, PyVal.str "oops".data)]] := by
  have h := chat_invalid_json_raw_fallback plainEnv
    { pdf_text_content := "D".data, api_key := "k".data,
      gemini_call := some (fun _ => Except.ok (MOut.str "oops".data)),
      conversation_logs := [], answer_json_log := [], answer_structured_log := [] }
    "q".data [] (fun _ => Except.ok (MOut.str "oops".data)) "oops".data
    (by decide) (by decide) rfl rfl (by rfl)
  simpa using h

/-- C7: a question submitted while the document text is empty appends the
fixed instructional message as the answer, performs no model call, and
leaves the whole session state (including both reply logs) unchanged. -/
theorem chat_before_upload_short_circuits (env : AppEnv) (st : AppState) (q : Str)
    (hist : List (Str × PyVal)) (hpdf : st.pdf_text_content = []) :
    (chat env st q hist).state = st ∧
    (chat env st q hist).history = hist ++ [(q, PyVal.str notReadyMsgPdf)] ∧
    (chat env st q hist).modelCalls = 0 := by
  simp [chat, hpdf]

theorem chat_before_upload_short_circuits_witness :
    (chat plainEnv initialState "hi".data []).state = initialState ∧
    (chat plainEnv initialState "hi".data []).history =
      [("hi".data, PyVal.str notReadyMsgPdf)] ∧
    (chat plainEnv initialState "hi".data []).modelCalls = 0 := by
  have h := chat_before_upload_short_circuits plainEnv initialState "hi".data [] rfl
  simpa using h

/-- C8 (code bug): for a turn submitted in a non-Ready state the entry
point returns only the transcript and the clear signal; the third value,
the joined raw-reply log promised by the docstring and the claim, is
absent. -/
theorem chat_not_ready_returns_two_values :
    (chat plainEnv initialState "hi".data []).rawStream = Option.none := rfl

/-- C9: the client factory raises a configuration error exactly on an
empty API key; on a non-empty key it returns a callable without raising,
choosing the newer binding when available, else the older one, else the
stub whose calls return the explanatory message. -/
theorem init_gemini_client_behaviour (env : AppEnv) (key : Str) (st : AppState) :
    (key = [] → (init_gemini_client env key st).2 = Except.error cfgErrMsg) ∧
    (key ≠ [] → ∃ call,
      (init_gemini_client env key st).2 =
        Except.ok
          ((if env.genaiAvailable then ClientKind.withGenai
            else if env.generativeaiAvailable then ClientKind.withGenerativeai
            else ClientKind.stub), call) ∧
      (env.genaiAvailable = false → env.generativeaiAvailable = false →
        ∀ p, call p = Except.ok (MOut.str stubMessage))) := by
  constructor
  · intro h
    simp [init_gemini_client, h]
  · intro h
    by_cases hg : env.genaiAvailable = true
    · refine ⟨env.genaiCall key, ?_, ?_⟩
      · simp [init_gemini_client, h, hg]
      · intro h1
        rw [h1] at hg
        cases hg
    · by_cases ha : env.generativeaiAvailable = true
      · refine ⟨env.generativeaiCall key, ?_, ?_⟩
        · simp [init_gemini_client, h, hg, ha]
        · intro _ h2
          rw [h2] at ha
          cases ha
      · refine ⟨fun _ => Except.ok (MOut.str stubMessage), ?_, ?_⟩
        · simp [init_gemini_client, h, hg, ha]
        · intro _ _ p
          rfl

theorem init_gemini_client_behaviour_witness :
    (init_gemini_client plainEnv [] initialState).2 = Except.error cfgErrMsg ∧
    ∃ call,
      (init_gemini_client plainEnv "k".data initialState).2 =
        Except.ok (ClientKind.stub, call) ∧
      call "p".data = Except.ok (MOut.str stubMessage) := by
  constructor
  · exact (init_gemini_client_behaviour plainEnv [] initialState).1 rfl
  · obtain ⟨call, h1, h2⟩ :=
      (init_gemini_client_behaviour plainEnv "k".data initialState).2 (by decide)
    refine ⟨call, ?_, h2 rfl rfl "p".data⟩
    simpa [plainEnv] using h1

/-- C10: the upload handler invoked with a missing file or an empty API
key answers with the corresponding instructional message and returns the
session state untouched. -/
theorem upload_missing_input_preserves_state (env : AppEnv) (pdf_file : Option PdfFile)
    (key : Str) (st : AppState) (h : pdf_file = Option.none ∨ key = []) :
    upload_and_prepare env pdf_file key st =
      (st, Except.ok (if pdf_file.isNone then uploadNoFileMsg else uploadNoKeyMsg)) := by
  rcases h with h | h
  · subst h
    simp [upload_and_prepare]
  · subst h
    cases pdf_file with
    | none => simp [upload_and_prepare]
    | some f => simp [upload_and_prepare]

theorem upload_missing_input_preserves_state_witness :
    upload_and_prepare plainEnv Option.none "k".data initialState =
      (initialState, Except.ok uploadNoFileMsg) := by
  have h := upload_missing_input_preserves_state plainEnv Option.none "k".data
    initialState (Or.inl rfl)
  simpa using h

theorem chatFinish_aligned {st : AppState} (q : Str) (hist : List (Str × PyVal)) (mo : MOut)
    (calls : Nat) (pr : List Str) (h : logsAligned st) :
    logsAligned (chatFinish st q hist mo calls pr).state := by
  cases mo with
  | nonStr r => simpa [chatFinish, mkResult, logsAligned] using h
  | str s =>
    simp only [chatFinish, mkResult, logsAligned] at *
    simp [h, parsedOf]

theorem chatReady_aligned (env : AppEnv) (st : AppState) (q : Str)
    (hist : List (Str × PyVal)) (h : logsAligned st) :
    logsAligned (chatReady env st q hist).state := by
  unfold chatReady
  split
  · exact chatFinish_aligned _ _ _ _ _ h
  · split
    · exact chatFinish_aligned _ _ _ _ _ h
    · exact chatFinish_aligned _ _ _ _ _ h

theorem chat_aligned (env : AppEnv) (st : AppState) (q : Str) (hist : List (Str × PyVal))
    (h : logsAligned st) : logsAligned (chat env st q hist).state := by
  by_cases hpdf : st.pdf_text_content = []
  · simpa [chat, hpdf] using h
  · by_cases hkey : st.api_key = []
    · simpa [chat, hpdf, hkey] using h
    · simp only [chat, if_neg hpdf, if_neg hkey]
      exact chatReady_aligned env st q hist h

theorem init_gemini_client_state (env : AppEnv) (k : Str) (st : AppState) :
    (init_gemini_client env k st).1 = { st with api_key := k } := by
  unfold init_gemini_client
  split
  · rfl
  · split
    · rfl
    · split
      · rfl
      · rfl

theorem upload_answer_logs (env : AppEnv) (p : Option PdfFile) (k : Str) (st : AppState) :
    ((upload_and_prepare env p k st).1).answer_json_log = st.answer_json_log ∧
    ((upload_and_prepare env p k st).1).answer_structured_log = st.answer_structured_log := by
  simp only [upload_and_prepare]
  split
  · exact ⟨rfl, rfl⟩
  · split
    · exact ⟨rfl, rfl⟩
    · split
      · exact ⟨rfl, rfl⟩
      · split
        · next st2 e heq =>
          have h1 : st2 =
              (init_gemini_client env k
                { st with pdf_text_content := parse_pdf env p }).1 := by
            rw [heq]
          rw [init_gemini_client_state] at h1
          subst h1
          exact ⟨rfl, rfl⟩
        · next st2 kind call heq =>
          have h1 : st2 =
              (init_gemini_client env k
                { st with pdf_text_content := parse_pdf env p }).1 := by
            rw [heq]
          rw [init_gemini_client_state] at h1
          subst h1
          exact ⟨rfl, rfl⟩

theorem upload_aligned (env : AppEnv) (p : Option PdfFile) (k : Str) (st : AppState)
    (h : logsAligned st) : logsAligned ((upload_and_prepare env p k st).1) := by
  have h2 := upload_answer_logs env p k st
  unfold logsAligned at *
  rw [h2.1, h2.2, h]

theorem runEvents_aligned (env : AppEnv) :
    ∀ (es : List AppEvent) (st : AppState) (hist : List (Str × PyVal)),
      logsAligned st → logsAligned (runEvents env st hist es).1 := by
  intro es
  induction es with
  | nil =>
    intro st hist h
    exact h
  | cons e es ih =>
    intro st hist h
    cases e with
    | upload p k =>
      simp only [runEvents, stepEvent]
      exact ih _ _ (upload_aligned env p k st h)
    | ask q =>
      simp only [runEvents, stepEvent]
      exact ih _ _ (chat_aligned env st q hist h)

/-- C3: after any sequence of uploads and questions, with the model
succeeding, raising, or returning arbitrary output, the raw-reply and
parsed-reply logs have equal length, and entry `i` of the parsed log is
exactly the decode of entry `i` of the raw log. -/
theorem raw_and_parsed_logs_aligned (env : AppEnv) (hist : List (Str × PyVal))
    (es : List AppEvent) :
    ((runEvents env initialState hist es).1).answer_structured_log =
      ((runEvents env initialState hist es).1).answer_json_log.map parsedOf ∧
    ((runEvents env initialState hist es).1).answer_json_log.length =
      ((runEvents env initialState hist es).1).answer_structured_log.length := by
  have h := runEvents_aligned env es initialState hist (by simp [logsAligned, initialState])
  exact ⟨h, by rw [h]; simp⟩

/-- C5 counterexample: for the JSON object text `"{}"` (valid JSON, no
`"answer"` key) the fenced and unfenced turns display different answers —
the fenced turn falls back to the whole raw fenced text — so the claim
fails as stated for arbitrary JSON object texts. -/
theorem fenced_roundtrip_fails_without_answer_key :
    (chat plainEnv
        { pdf_text_content := "D".data, api_key := "k".data,
          gemini_call := some
            (fun _ => Except.ok (MOut.str (fencedWrap "json".data "\x7b\x7d".data))),
          conversation_logs := [], answer_json_log := [], answer_structured_log := [] }
        "q".data []).history =
      [("q".data, PyVal.str (fencedWrap "json".data "\x7b\x7d".data))] ∧
    (chat plainEnv
        { pdf_text_content := "D".data, api_key := "k".data,
          gemini_call := some (fun _ => Except.ok (MOut.str "\x7b\x7d".data)),
          conversation_logs := [], answer_json_log := [], answer_structured_log := [] }
        "q".data []).history = [("q".data, PyVal.str "\x7b\x7d".data)] ∧
    PyVal.str (fencedWrap "json".data "\x7b\x7d".data) ≠ PyVal.str "\x7b\x7d".data := by
  refine ⟨rfl, rfl, fun h => ?_⟩
  have h2 := PyVal.str.inj h
  exact absurd h2 (by decide)

/-- C5 (amended): for every whitespace-trimmed JSON object text `t` whose
decoded object carries a non-null `"answer"` value, and every language
tag line free of backticks and newlines, a turn whose raw output is `t`
wrapped in triple-backtick fences with that tag displays the same answer
as a turn whose raw output is `t` unwrapped. -/
theorem fenced_unfenced_same_displayed_answer (env : AppEnv) (st : AppState) (q : Str)
    (hist : List (Str × PyVal)) (tag t : Str) (d : List (Str × PyVal))
    (hpdf : st.pdf_text_content ≠ []) (hkey : st.api_key ≠ [])
    (hbt : btChar ∉ tag) (hnl : '\n' ∉ tag)
    (hts : pyStrip t = t)
    (hparse : jsonParse t = some (PyVal.dict d))
    (hans : (dictGet d "answer".data).isNone = false) :
    (chat env { st with gemini_call := some (fun _ => Except.ok (MOut.str (fencedWrap tag t))) } q hist).history =
    (chat env { st with gemini_call := some (fun _ => Except.ok (MOut.str t)) } q hist).history := by
  obtain ⟨t2, ht2⟩ := jsonParse_dict_head hparse hts
  have hsfF : stripFence (fencedWrap tag t) = t ++ ['\n'] := stripFence_fenced t hbt hnl
  have hsfU : stripFence t = t := stripFence_plain hts ht2
  have hpF : jsonParse (stripFence (fencedWrap tag t)) = some (PyVal.dict d) := by
    rw [hsfF, jsonParse_append_nl, hparse]
  have hrpF : respParse (stripFence (fencedWrap tag t)) =
      (dictGet d "answer".data, PyVal.dict d) := by
    simp [respParse, hpF]
  have hrpU : respParse (stripFence t) = (dictGet d "answer".data, PyVal.dict d) := by
    simp [respParse, hsfU, hparse]
  rw [chat_str_run env
        { st with gemini_call := some (fun _ => Except.ok (MOut.str (fencedWrap tag t))) }
        q hist (fun _ => Except.ok (MOut.str (fencedWrap tag t))) (fencedWrap tag t)
        hpdf hkey rfl rfl,
      chat_str_run env
        { st with gemini_call := some (fun _ => Except.ok (MOut.str t)) }
        q hist (fun _ => Except.ok (MOut.str t)) t hpdf hkey rfl rfl,
      mkResult_history, mkResult_history, hrpF, hrpU]
  simp [hans]

theorem fenced_unfenced_same_displayed_answer_witness :
    (chat plainEnv
        { pdf_text_content := "D".data, api_key := "k".data,
          gemini_call := some (fun _ => Except.ok (MOut.str (fencedWrap "json".data "\x7b\"answer\": \"yes\"\x7d".data))),
          conversation_logs := [], answer_json_log := [], answer_structured_log := [] }
        "q".data []).history =
    (chat plainEnv
        { pdf_text_content := "D".data, api_key := "k".data,
          gemini_call := some (fun _ => Except.ok (MOut.str "\x7b\"answer\": \"yes\"\x7d".data)),
          conversation_logs := [], answer_json_log := [], answer_structured_log := [] }
        "q".data []).history := by
  have h := fenced_unfenced_same_displayed_answer plainEnv
    { pdf_text_content := "D".data, api_key := "k".data, gemini_call := Option.none,
      conversation_logs := [], answer_json_log := [], answer_structured_log := [] }
    "q".data [] "json".data "\x7b\"answer\": \"yes\"\x7d".data
    [("answer".data, PyVal.str "yes".data)]
    (by decide) (by decide) (by decide) (by decide) (by rfl) (by rfl) (by rfl)
  exact h

/-- C6 counterexample: in the revenue scenario, the entry appended to the
raw-reply log is not the bare JSON text — the code appends the text after
fence stripping, which retains the newline that preceded the closing
fence. -/
theorem revenue_scenario_raw_log_without_newline_fails :
    (chat plainEnv
        { pdf_text_content := "Revenue was $5M.".data, api_key := "k".data,
          gemini_call := some (fun _ => Except.ok (MOut.str "```json\n\x7b\"answer\": \"$5M\", \"evidence\": \"page 1\"\x7d\n```".data)),
          conversation_logs := [], answer_json_log := [], answer_structured_log := [] }
        "What was revenue?".data []).state.answer_json_log ≠
      ["\x7b\"answer\": \"$5M\", \"evidence\": \"page 1\"\x7d".data] := by
  intro h
  have h2 : ("\x7b\"answer\": \"$5M\", \"evidence\": \"page 1\"\x7d\n".data : Str) =
      "\x7b\"answer\": \"$5M\", \"evidence\": \"page 1\"\x7d".data := by
    have h1 : (chat plainEnv
        { pdf_text_content := "Revenue was $5M.".data, api_key := "k".data,
          gemini_call := some (fun _ => Except.ok (MOut.str "```json\n\x7b\"answer\": \"$5M\", \"evidence\": \"page 1\"\x7d\n```".data)),
          conversation_logs := [], answer_json_log := [], answer_structured_log := [] }
        "What was revenue?".data []).state.answer_json_log =
        ["\x7b\"answer\": \"$5M\", \"evidence\": \"page 1\"\x7d\n".data] := rfl
    rw [h1] at h
    exact List.head_eq_of_cons_eq h
  exact absurd h2 (by decide)

/-- C6 (amended): the revenue scenario appends the pair
`("What was revenue?", "$5M")` to the transcript and appends the stripped
JSON text, including its trailing newline, to the raw-reply log. -/
theorem revenue_scenario_behaviour :
    (chat plainEnv
        { pdf_text_content := "Revenue was $5M.".data, api_key := "k".data,
          gemini_call := some (fun _ => Except.ok (MOut.str "```json\n\x7b\"answer\": \"$5M\", \"evidence\": \"page 1\"\x7d\n```".data)),
          conversation_logs := [], answer_json_log := [], answer_structured_log := [] }
        "What was revenue?".data []).history =
      [("What was revenue?".data, PyVal.str "$5M".data)] ∧
    (chat plainEnv
        { pdf_text_content := "Revenue was $5M.".data, api_key := "k".data,
          gemini_call := some (fun _ => Except.ok (MOut.str "```json\n\x7b\"answer\": \"$5M\", \"evidence\": \"page 1\"\x7d\n```".data)),
          conversation_logs := [], answer_json_log := [], answer_structured_log := [] }
        "What was revenue?".data []).state.answer_json_log =
      ["\x7b\"answer\": \"$5M\", \"evidence\": \"page 1\"\x7d\n".data] :=
  ⟨rfl, rfl⟩
